import Mathlib

/-!
A shallow embedding of `scripts/fetch_completed.py` (jittania/todoist-tracker).

Modelling conventions:
* Python dicts holding JSON task/item payloads become the `RawItem` structure;
  a missing key is `none`, a present value is already coerced to the string
  form the code produces with `str(...)`.
* The persistent task cache (`task_cache.json`, a dict keyed by task id) is a
  function `String → Option TaskInfo`; the in-run pending buffer
  `cache_updates` is an association list updated at the front, so that the
  most recent insertion wins, matching Python dict assignment.
* Network access (`fetch_task`, `fetch_completed`, `fetch_projects`) is
  passed in as a function argument; a `none` result stands for a 404/error
  (the code's `return None` path).  The third component of the resolver
  results counts how many live single-task fetches were performed, so that
  "no network fetch happened" is expressible.
* The unbounded Python `while` loop in `is_task_allowed` is modelled with
  explicit fuel; running out of fuel yields `none` (the Python program would
  still be looping), a definite answer is `some b`.
* Timestamps handled by `datetime` arithmetic are modelled as integer seconds;
  `timedelta.days` is floor division by 86400, i.e. `Int.fdiv`.
-/

/-- Task info cache entry: `{content, parent_id, project_id}`
(see `task_info_from_api` / `task_cache.json`). -/
structure TaskInfo where
  content : String
  parent_id : String
  project_id : String
deriving DecidableEq, Repr, Inhabited

/-- A raw JSON task/completion item as returned by the API.  `none` marks an
absent key (or JSON `null`); string coercions that the Python code performs
with `str(...)` are taken as already applied.  `priority` is the value after
the code's `int(...)` attempt: `none` when missing or unparsable. -/
structure RawItem where
  id : String
  content : Option String
  completed_at : Option String
  project_id : String
  parent_id : Option String
  priority : Option Int
deriving DecidableEq, Repr, Inhabited

/-- A stored completion event, one line of `completed_events.jsonl`
(see `event_from_item`). -/
structure CompletionEvent where
  id : String
  content : String
  completed_at : String
  project_id : String
  parent_id : String
  priority : String
deriving DecidableEq, Repr, Inhabited

/-- The pending-update buffer `cache_updates` (newest entry first). -/
abbrev Upd := List (String × TaskInfo)

/-! ### Python string primitives

The Lean `String` library implements `trim`, `splitOn`, `replace` and
`startsWith` by well-founded recursion on byte positions, which the kernel
cannot evaluate; the Python string operations the source uses are therefore
embedded as the following structurally recursive functions on the character
list, so that concrete runs reduce. -/

/-- Python `str.strip()`: drop whitespace from both ends. -/
def pyStrip (s : String) : String :=
  ⟨((s.data.dropWhile Char.isWhitespace).reverse.dropWhile Char.isWhitespace).reverse⟩

/-- Python `str.split(sep)` for a one-character separator, on the character
list: splitting always yields at least one (possibly empty) part. -/
def pySplitChar (sep : Char) : List Char → List (List Char)
  | [] => [[]]
  | c :: rest =>
    match pySplitChar sep rest with
    | [] => if c = sep then [[], []] else [[c]]
    | h :: t => if c = sep then [] :: h :: t else (c :: h) :: t

/-- Python `str.split(sep)` for a one-character separator. -/
def pySplit (s : String) (sep : Char) : List String :=
  (pySplitChar sep s.data).map (fun l => ⟨l⟩)

/-- Python `str.replace(a, b)` for one-character `a` and `b`. -/
def pyReplaceChar (a b : Char) (s : String) : String :=
  ⟨s.data.map (fun c => if c = a then b else c)⟩

/-- Python `str.startswith(pre)`. -/
def pyStartsWith (s pre : String) : Bool :=
  pre.data.isPrefixOf s.data

/-- Dict lookup on the pending buffer; the first (most recent) binding wins. -/
def lookupA (l : Upd) (k : String) : Option TaskInfo :=
  match l with
  | [] => none
  | (a, b) :: rest => if a = k then some b else lookupA rest k

/-- `task_info_from_api`: extract `{content, parent_id, project_id}` from an
API task dict.  `content` is `task.get("content") or ""` stripped; a falsy
`parent_id` becomes `""`. -/
def task_info_from_api (task : RawItem) : TaskInfo :=
  { content := pyStrip (task.content.getD "")
    parent_id := task.parent_id.getD ""
    project_id := task.project_id }

/-- The composition `fetch_task` followed by `task_info_from_api`: what a
successful live resolution of a task id produces. -/
def fetchInfo (fetch : String → Option RawItem) (task_id : String) : Option TaskInfo :=
  (fetch task_id).map task_info_from_api

/-- `get_task_info(token, task_id, cache, cache_updates)`: resolve a task id
via the persistent cache, then the pending buffer, then a live fetch.
Returns the resolved info (or `none`), the possibly-extended pending buffer,
and the number of live fetches performed (0 or 1). -/
def get_task_info (fetch : String → Option RawItem) (cache : String → Option TaskInfo)
    (task_id : String) (cache_updates : Upd) : Option TaskInfo × Upd × Nat :=
  if task_id = "" then (none, cache_updates, 0)
  else
    match cache task_id with
    | some info => (some info, cache_updates, 0)
    | none =>
      match lookupA cache_updates task_id with
      | some info => (some info, cache_updates, 0)
      | none =>
        match fetch task_id with
        | none => (none, cache_updates, 1)
        | some task =>
          let info := task_info_from_api task
          (some info, (task_id, info) :: cache_updates, 1)

/-- The `while next_parent_id:` loop of `is_task_allowed`, with explicit fuel.
Each iteration resolves `next_parent_id` (updating the pending buffer), fails
closed on an unresolvable link, admits when the resolved ancestor id is in the
allow-list, and otherwise follows the resolved `parent_id` (stripped).
Result: (decision — `none` when fuel ran out, pending buffer, live fetch count). -/
def allowWalk (fetch : String → Option RawItem) (cache : String → Option TaskInfo)
    (allowed : List String) : Nat → String → Upd → Option Bool × Upd × Nat
  | 0, next_parent_id, upd =>
    if next_parent_id = "" then (some false, upd, 0) else (none, upd, 0)
  | fuel + 1, next_parent_id, upd =>
    if next_parent_id = "" then (some false, upd, 0)
    else
      match get_task_info fetch cache next_parent_id upd with
      | (none, upd2, n) => (some false, upd2, n)
      | (some info, upd2, n) =>
        if next_parent_id ∈ allowed then (some true, upd2, n)
        else
          let r := allowWalk fetch cache allowed fuel (pyStrip info.parent_id) upd2
          (r.1, r.2.1, n + r.2.2)

/-- `is_task_allowed(task_id, parent_id, allowed_ids, token, cache,
cache_updates)`: `False` for an empty id, immediate `True` when the id itself
is allowed, otherwise walk the parent chain starting from the stripped
`parent_id`.  (The Python local `current_id` is dead after assignment and is
not modelled.) -/
def is_task_allowed (task_id parent_id : String) (allowed : List String)
    (fetch : String → Option RawItem) (cache : String → Option TaskInfo)
    (fuel : Nat) (upd : Upd) : Option Bool × Upd × Nat :=
  if task_id = "" then (some false, upd, 0)
  else if task_id ∈ allowed then (some true, upd, 0)
  else allowWalk fetch cache allowed fuel (pyStrip parent_id) upd

/-- `THREE_MONTHS_DAYS = 90`. -/
def THREE_MONTHS_DAYS : Int := 90

/-- The window-clamping prologue of `fetch_completed`: timestamps as seconds.
`(until_dt - since_dt).days` is floor division of the difference by 86400;
when it exceeds `THREE_MONTHS_DAYS`, `since` is moved to `until - 90 days`. -/
def fetch_completed_window (since_s until_s : Int) : Int × Int :=
  if THREE_MONTHS_DAYS < Int.fdiv (until_s - since_s) 86400 then
    (until_s - THREE_MONTHS_DAYS * 86400, until_s)
  else (since_s, until_s)

/-! ### Specification-side resolver and ancestor chain

`effResolve` is the resolver that a run effectively sees: the persistent
cache first, then a live fetch.  The pending buffer is invisible here; the
`UpdConsistent` invariant below states that every pending entry agrees with
what a live fetch would return, which makes the buffer semantically
transparent. -/

/-- The effective resolver of one run: persistent cache, else live fetch;
empty ids never resolve. -/
def effResolve (fetch : String → Option RawItem) (cache : String → Option TaskInfo)
    (x : String) : Option TaskInfo :=
  if x = "" then none
  else
    match cache x with
    | some i => some i
    | none => fetchInfo fetch x

/-- Invariant of the pending buffer: each entry records a live-fetch result
for an id absent from the persistent cache. -/
def UpdConsistent (fetch : String → Option RawItem) (cache : String → Option TaskInfo)
    (upd : Upd) : Prop :=
  ∀ x i, lookupA upd x = some i → cache x = none ∧ fetchInfo fetch x = some i

/-- The ancestor chain induced by a resolver: `ancChain R p 0 = p`, and each
further step resolves the current ancestor and strips its `parent_id`.  The
chain is `none` once it has passed an empty id or an unresolvable link. -/
def ancChain (R : String → Option TaskInfo) (p : String) : Nat → Option String
  | 0 => some p
  | k + 1 =>
    match ancChain R p k with
    | none => none
    | some q =>
      if q = "" then none
      else
        match R q with
        | none => none
        | some info => some (pyStrip info.parent_id)

/-- Stateless rendition of the `while` loop of `is_task_allowed` over an
abstract resolver. -/
def pureWalk (R : String → Option TaskInfo) (allowed : List String) :
    Nat → String → Option Bool
  | 0, p => if p = "" then some false else none
  | fuel + 1, p =>
    if p = "" then some false
    else
      match R p with
      | none => some false
      | some info =>
        if p ∈ allowed then some true
        else pureWalk R allowed fuel (pyStrip info.parent_id)

/-- Stateless rendition of `is_task_allowed` over an abstract resolver. -/
def pureAllowed (R : String → Option TaskInfo) (allowed : List String)
    (fuel : Nat) (task_id parent_id : String) : Option Bool :=
  if task_id = "" then some false
  else if task_id ∈ allowed then some true
  else pureWalk R allowed fuel (pyStrip parent_id)

/-! ### Events, the ingestion loop of `main`, and configuration -/

/-- `event_from_item`: build the stored event from an API item.  The
priority ordinal 1–4 is replaced by the (mojibake) marker literals that the
source file contains; any other/missing value gets the fallback marker. -/
def event_from_item (item : RawItem) : CompletionEvent :=
  let p := item.priority
  let priority :=
    if p = some 1 then "âšªï¸"
    else if p = some 2 then "ðŸ”µ"
    else if p = some 3 then "ðŸŸ "
    else if p = some 4 then "ðŸ”´"
    else "âŒ"
  { id := item.id
    content := pyStrip (item.content.getD "")
    completed_at := item.completed_at.getD ""
    project_id := item.project_id
    parent_id := item.parent_id.getD ""
    priority := priority }

/-- The `existing_ids` set built in `main` from the loaded event store:
ids of stored events, skipping falsy (empty) ids. -/
def storeIds (events : List CompletionEvent) : List String :=
  (events.map (fun e => e.id)).filter (fun s => decide (¬ s = ""))

/-- The admission loop of `main` (lines 609–618): for each fetched item skip
empty or already-seen ids, ask `is_task_allowed` (threading the pending
buffer also through rejections), and collect admitted events while extending
the seen-id set.  Returns the new events and the final pending buffer. -/
def processItems (fetch : String → Option RawItem) (cache : String → Option TaskInfo)
    (allowed : List String) (fuel : Nat) :
    List RawItem → List String → Upd → List CompletionEvent × Upd
  | [], _, upd => ([], upd)
  | item :: rest, existing, upd =>
    if item.id = "" ∨ item.id ∈ existing then
      processItems fetch cache allowed fuel rest existing upd
    else
      let r := is_task_allowed item.id (item.parent_id.getD "") allowed fetch cache fuel upd
      if r.1 = some true then
        let pr := processItems fetch cache allowed fuel rest (item.id :: existing) r.2.1
        (event_from_item item :: pr.1, pr.2)
      else processItems fetch cache allowed fuel rest existing r.2.1

/-- Python's `{**cache, **cache_updates}`: pending entries override the
persistent cache. -/
def mergeCache (upd : Upd) (cache : String → Option TaskInfo) :
    String → Option TaskInfo :=
  fun x =>
    match lookupA upd x with
    | some i => some i
    | none => cache x

/-- One admission-and-append run over already-fetched items: the admission
loop starting from an empty pending buffer, `append_events` of the admitted
events, and the end-of-run cache merge.  Returns (new store, new cache). -/
def ingestRun (fetch : String → Option RawItem) (allowed : List String) (fuel : Nat)
    (items : List RawItem) (cache : String → Option TaskInfo)
    (store : List CompletionEvent) :
    List CompletionEvent × (String → Option TaskInfo) :=
  let pr := processItems fetch cache allowed fuel items (storeIds store) []
  (store ++ pr.1, mergeCache pr.2 cache)

/-- `get_allowed_root_ids(config)`: the `allowed_root_task_ids` value of
`config.json` (`none` when the key is missing or not a list), each element
stringified and stripped, empties dropped.  Membership and emptiness are all
that is consumed of the set, so a list models it. -/
def get_allowed_root_ids (raw : Option (List String)) : List String :=
  match raw with
  | none => []
  | some l => (l.map pyStrip).filter (fun s => decide (¬ s = ""))

/-- `get_allowed_root_ids_from_env_or_config()`: a non-empty (after strip)
`TODOIST_ALLOWED_ROOT_TASK_IDS` environment value is split on commas,
stripped, empties dropped — and `config.json` is not consulted; otherwise the
configuration value is used. -/
def get_allowed_root_ids_from_env_or_config (env : Option String)
    (config : Option (List String)) : List String :=
  let env_val := pyStrip (env.getD "")
  if ¬ env_val = "" then
    ((pySplit env_val ',').map pyStrip).filter (fun s => decide (¬ s = ""))
  else get_allowed_root_ids config

/-- Stateless rendition of the admission loop over an abstract resolver. -/
def pureProcess (R : String → Option TaskInfo) (allowed : List String) (fuel : Nat) :
    List RawItem → List String → List CompletionEvent
  | [], _ => []
  | item :: rest, existing =>
    if item.id = "" ∨ item.id ∈ existing then
      pureProcess R allowed fuel rest existing
    else if pureAllowed R allowed fuel item.id (item.parent_id.getD "") = some true then
      event_from_item item :: pureProcess R allowed fuel rest (item.id :: existing)
    else pureProcess R allowed fuel rest existing
/-! ### Rendering (`completed.md`) -/

/-- What the embedding keeps of a localised `datetime` (America/Los_Angeles):
the underlying instant — aware datetimes compare by instant, and this is the
sort key — and the display fields `_format_entry_date` reads.  The timezone
conversion itself (`zoneinfo`) is an external collaborator, passed in as a
function `String → LocalDT`. -/
structure LocalDT where
  instant : Int
  weekday : String
  monthAbbr : String
  day : Nat
deriving DecidableEq, Repr, Inhabited

/-- `_day_ordinal`. -/
def day_ordinal (day : Nat) : String :=
  if 11 ≤ day ∧ day ≤ 13 then "th"
  else if day % 10 = 1 then "st"
  else if day % 10 = 2 then "nd"
  else if day % 10 = 3 then "rd"
  else "th"

/-- `_format_entry_date`: `"Thursday, Feb 26th"`. -/
def format_entry_date (l : LocalDT) : String :=
  l.weekday ++ ", " ++ l.monthAbbr ++ " " ++ toString l.day ++ day_ordinal l.day

/-- `resolve_parent_title(parent_id, id_to_content, task_cache)`: event-store
content first, then the task cache, never the network.  A `None` cache is
`none`; an empty dict (also falsy in Python) behaves identically to a lookup
miss, so the function model is faithful. -/
def resolve_parent_title (parent_id : String) (id_to_content : String → Option String)
    (task_cache : Option (String → Option TaskInfo)) : String :=
  if parent_id = "" then ""
  else
    match id_to_content parent_id with
    | some c => c
    | none =>
      match task_cache with
      | none => "(parent_id: " ++ parent_id ++ ")"
      | some tc =>
        match tc parent_id with
        | none => "(parent_id: " ++ parent_id ++ ")"
        | some cached =>
          let content := pyStrip cached.content
          if ¬ content = "" then content else "(No title)"

/-- One `_enrich_event_for_display` result tuple
`(local_dt, date_line, priority_display, content_safe, parent_display,
project_name)`. -/
structure EnrichedRow where
  local_dt : Int
  date_line : String
  priority_display : String
  content_safe : String
  parent_display : String
  project_name : String
deriving DecidableEq, Repr, Inhabited

/-- `_enrich_event_for_display`.  Events built by `event_from_item` always
store the priority marker as a string, so the `isinstance(p, str)` branch
applies; the legacy integer re-mapping is dead in this model. -/
def enrich_event_for_display (e : CompletionEvent) (id_to_content : String → Option String)
    (project_map : String → Option String) (task_cache : Option (String → Option TaskInfo))
    (localize : String → LocalDT) : EnrichedRow :=
  let local_dt := localize e.completed_at
  let project_name := (project_map e.project_id).getD "Unknown"
  let priority_display := e.priority
  let content_safe := pyReplaceChar '\n' ' ' e.content
  let parent_id := pyStrip e.parent_id
  let parent_display :=
    if ¬ parent_id = "" then
      let parent_title := resolve_parent_title parent_id id_to_content task_cache
      if ¬ parent_title = "" ∧ pyStartsWith parent_title "(parent_id:" = false then
        parent_title
      else "(parent_id: " ++ parent_id ++ ")"
    else "â€”"
  { local_dt := local_dt.instant
    date_line := format_entry_date local_dt
    priority_display := priority_display
    content_safe := content_safe
    parent_display := parent_display
    project_name := project_name }

/-- The `id_to_content` dict built in `append_to_completed_md`; the last
binding for an id wins (dict assignment order). -/
def idContentMap (evs : List CompletionEvent) : String → Option String :=
  fun k => ((evs.filter (fun e => decide (e.id = k))).getLast?).map (fun e => e.content)

/-- The linear search-and-append over one date's group list in
`_build_grouped_blocks`: append the task pair to the first `(Goal, Project)`
group that matches, else add a new group at the end. -/
def addTask (grp : List (String × String × List (String × String)))
    (pd pj pri c : String) : List (String × String × List (String × String)) :=
  match grp with
  | [] => [(pd, pj, [(pri, c)])]
  | (p, proj, tasks) :: rest =>
    if p = pd ∧ proj = pj then (p, proj, tasks ++ [(pri, c)]) :: rest
    else (p, proj, tasks) :: addTask rest pd pj pri c

/-- `groups_by_date` together with `date_order`, kept as one association list
in insertion order (Python keeps a dict plus a separate order list). -/
def insertRow (gs : List (String × List (String × String × List (String × String))))
    (d pd pj pri c : String) :
    List (String × List (String × String × List (String × String))) :=
  match gs with
  | [] => [(d, addTask [] pd pj pri c)]
  | (d0, grp) :: rest =>
    if d0 = d then (d0, addTask grp pd pj pri c) :: rest
    else (d0, grp) :: insertRow rest d pd pj pri c

/-- `date_line or "Unknown date"` (the `is not None` guards on the remaining
tuple fields cannot fire: the fields are strings in this model). -/
def normDate (d : String) : String := if d = "" then "Unknown date" else d

/-- The grouping loop of `_build_grouped_blocks` over the sorted rows. -/
def groupRows (rows : List EnrichedRow) :
    List (String × List (String × String × List (String × String))) :=
  rows.foldl (fun gs row =>
    insertRow gs (normDate row.date_line) row.parent_display row.project_name
      row.priority_display row.content_safe) []

/-- The lines of one date block of `_build_grouped_blocks`. -/
def dateBlockLines (d : String) (grp : List (String × String × List (String × String))) :
    List String :=
  ("- **" ++ d ++ "**") ::
    (grp.map (fun g =>
      ("  - Goal: `**" ++ g.1 ++ "**` | " ++ g.2.1) ::
        g.2.2.map (fun t => "    - " ++ t.1 ++ " " ++ t.2))).flatten

/-- `_build_grouped_blocks(enriched)`: stable-sort by `local_dt`, group by
date then by `(Goal, Project)`, and emit one block per date. -/
def build_grouped_blocks (enriched : List EnrichedRow) : String :=
  match enriched with
  | [] => ""
  | _ =>
    let sorted_enriched := enriched.mergeSort (fun a b => decide (a.local_dt ≤ b.local_dt))
    let gs := groupRows sorted_enriched
    String.intercalate "\n\n"
      (gs.map (fun p => String.intercalate "\n" (dateBlockLines p.1 p.2)))

/-- Specification-side view: the task list of one `(Goal, Project)` group in
one date's group list. -/
def goalTasks (grp : List (String × String × List (String × String)))
    (pd pj : String) : List (String × String) :=
  match grp.find? (fun g => decide (g.1 = pd ∧ g.2.1 = pj)) with
  | none => []
  | some g => g.2.2

/-- Specification-side view: the task list of one `(date, Goal, Project)`
group in the grouped structure. -/
def tasksOf (gs : List (String × List (String × String × List (String × String))))
    (d pd pj : String) : List (String × String) :=
  match gs.find? (fun p => decide (p.1 = d)) with
  | none => []
  | some p => goalTasks p.2 pd pj

/-- `COMPLETED_MD_HEADER`. -/
def COMPLETED_MD_HEADER : String :=
  "# Completed tasks\n\nGrouped by week (America/Los_Angeles, Monday start). Append-only.\n\n"

/-- `\d\{4\}-\d\{2\}-\d\{2\}` (a ten-character dashed date). -/
def matchesDate (s : String) : Bool :=
  match s.toList with
  | [a, b, c, d, e, f, g, h, i, j] =>
    a.isDigit && b.isDigit && c.isDigit && d.isDigit && (e == '-') &&
      f.isDigit && g.isDigit && (h == '-') && i.isDigit && j.isDigit
  | _ => false

/-- One line matched against the week-heading regex
`^## Week of (\d\{4\}-\d\{2\}-\d\{2\})\s*$`, returning the captured date. -/
def isWeekHeading (line : String) : Option String :=
  if pyStartsWith line "## Week of " then
    let rest := line.data.drop 11
    let date : String := ⟨rest.take 10⟩
    let after := rest.drop 10
    if matchesDate date && after.all Char.isWhitespace then some date else none
  else none

/-- `append_to_completed_md(new_events, project_map, task_cache)`: append the
grouped lines under the current week's heading, creating the file or a new
heading as needed.  `heading_date` is the current week's Monday (derived from
the clock and timezone, passed in); `old_doc = none` models a missing file. -/
def append_to_completed_md (new_events : List CompletionEvent)
    (project_map : String → Option String)
    (task_cache : Option (String → Option TaskInfo))
    (localize : String → LocalDT) (heading_date : String)
    (old_doc : Option String) : Option String :=
  match new_events with
  | [] => old_doc
  | _ =>
    let id_to_content := idContentMap new_events
    let enriched := new_events.map (fun e =>
      enrich_event_for_display e id_to_content project_map task_cache localize)
    let lines_str := build_grouped_blocks enriched
    let fresh :=
      COMPLETED_MD_HEADER ++ "## Week of " ++ heading_date ++ "\n\n" ++ lines_str ++ "\n"
    match old_doc with
    | none => some fresh
    | some content =>
      if pyStrip content = "" then some fresh
      else
        let found := (pySplit content '\n').filterMap isWeekHeading
        let current_week_is_last_heading := found.getLast? = some heading_date
        let to_append :=
          if current_week_is_last_heading then "\n" ++ lines_str ++ "\n"
          else "\n\n## Week of " ++ heading_date ++ "\n\n" ++ lines_str ++ "\n"
        some (content ++ to_append)

/-! ### The run coordinator `main` -/

/-- The on-disk state `main` touches: `state.json`'s `last_run_iso`, the
event store, the task cache, and the rendered document (`none`: the file
does not exist). -/
structure FS where
  last_run_iso : Option String
  events : List CompletionEvent
  task_cache : String → Option TaskInfo
  completed_md : Option String

/-- `main()`, parameterised by its external collaborators: the environment
(`TODOIST_API_TOKEN`, `TODOIST_ALLOWED_ROOT_TASK_IDS`), `config.json`'s
allow-list value, the network (single-task fetch; the completed-items fetch
as a function of the requested window; the project directory), the clock
(`now` in ISO form, the default start `now - 24h`, the current week's
Monday) and timezone localisation.  Returns the final file state and the
process exit code.  Fatal HTTP failures abort the Python process before any
write; `fetchItems`/`project_map` here stand for successful responses. -/
def mainRun (token_env env_allowed : Option String) (config : Option (List String))
    (fetch : String → Option RawItem) (fetchItems : String → String → List RawItem)
    (project_map : String → Option String) (localize : String → LocalDT)
    (now_iso default_start_iso heading_date : String) (fuel : Nat) (fs : FS) :
    FS × Nat :=
  let token := pyStrip (token_env.getD "")
  if token = "" then (fs, 1)
  else
    let allowed := get_allowed_root_ids_from_env_or_config env_allowed config
    if allowed = [] then (fs, 0)
    else
      let start_iso :=
        match fs.last_run_iso with
        | some l => if l = "" then default_start_iso else l
        | none => default_start_iso
      let items := fetchItems start_iso now_iso
      let pr := processItems fetch fs.task_cache allowed fuel items (storeIds fs.events) []
      let new_events := pr.1
      let full_cache := mergeCache pr.2 fs.task_cache
      ({ last_run_iso := some now_iso
         events := if new_events.isEmpty then fs.events else fs.events ++ new_events
         task_cache := full_cache
         completed_md :=
           if new_events.isEmpty then fs.completed_md
           else
             append_to_completed_md new_events project_map (some full_cache) localize
               heading_date fs.completed_md }, 0)

/-! ### Concrete fixtures used by witnesses and counterexamples -/

/-- A persistent cache holding only task `"9"` with parent `"5"`
(the C4 scenario: `"5"` itself is NOT cached). -/
def cacheOnly9 : String → Option TaskInfo :=
  fun x => if x = "9" then some ⟨"c9", "5", "p1"⟩ else none

/-- A persistent cache holding task `"9"` (parent `"5"`) and task `"5"`
(a root). -/
def cache9and5 : String → Option TaskInfo :=
  fun x =>
    if x = "9" then some ⟨"c9", "5", "p1"⟩
    else if x = "5" then some ⟨"g5", "", "p1"⟩
    else none

/-- A network on which only task `"5"` exists. -/
def fetchOnly5 : String → Option RawItem :=
  fun x => if x = "5" then some ⟨"5", some "Goal five", none, "p1", none, none⟩ else none

/-- Three enriched rows on the same local date: instants 1, 2, 3 under goals
A, B, A respectively. -/
def rowAlpha : EnrichedRow := ⟨1, "Monday, Jan 1st", "*", "alpha", "A", "P"⟩

def rowBeta : EnrichedRow := ⟨2, "Monday, Jan 1st", "*", "beta", "B", "P"⟩

def rowGamma : EnrichedRow := ⟨3, "Monday, Jan 1st", "*", "gamma", "A", "P"⟩

/-! ### Resolver lemmas -/

theorem lookupA_cons (a : String) (b : TaskInfo) (l : Upd) (k : String) :
    lookupA ((a, b) :: l) k = if a = k then some b else lookupA l k := rfl

theorem get_task_info_fst (fetch : String → Option RawItem)
    (cache : String → Option TaskInfo) (x : String) (upd : Upd)
    (hc : UpdConsistent fetch cache upd) :
    (get_task_info fetch cache x upd).1 = effResolve fetch cache x := by
  unfold get_task_info effResolve
  by_cases hx : x = "" <;> simp [hx]
  cases hcache : cache x <;> simp
  cases hupd : lookupA upd x with
  | some i =>
    obtain ⟨-, hf⟩ := hc x i hupd
    simp [hf]
  | none =>
    cases hf : fetch x <;> simp [fetchInfo, hf]

theorem get_task_info_consistent (fetch : String → Option RawItem)
    (cache : String → Option TaskInfo) (x : String) (upd : Upd)
    (hc : UpdConsistent fetch cache upd) :
    UpdConsistent fetch cache (get_task_info fetch cache x upd).2.1 := by
  unfold get_task_info
  by_cases hx : x = "" <;> simp [hx]
  · exact hc
  cases hcache : cache x <;> simp
  · cases hupd : lookupA upd x <;> simp
    · cases hf : fetch x <;> simp
      · exact hc
      · intro y i hy
        rw [lookupA_cons] at hy
        by_cases hyx : x = y
        · subst hyx
          simp at hy
          subst hy
          exact ⟨hcache, by simp [fetchInfo, hf]⟩
        · rw [if_neg hyx] at hy
          exact hc y i hy
    · exact hc
  · exact hc

theorem get_task_info_count (fetch : String → Option RawItem)
    (cache : String → Option TaskInfo) (x : String) (upd : Upd) :
    (get_task_info fetch cache x upd).2.2 ≤ 1 := by
  unfold get_task_info
  by_cases hx : x = "" <;> simp [hx]
  cases cache x <;> simp
  cases lookupA upd x <;> simp
  cases fetch x <;> simp

/-! ### Walk lemmas: the stateful walk agrees with the stateless one -/

theorem allowWalk_spec (fetch : String → Option RawItem)
    (cache : String → Option TaskInfo) (allowed : List String) :
    ∀ (fuel : Nat) (p : String) (upd : Upd), UpdConsistent fetch cache upd →
      (allowWalk fetch cache allowed fuel p upd).1 =
        pureWalk (effResolve fetch cache) allowed fuel p ∧
      UpdConsistent fetch cache (allowWalk fetch cache allowed fuel p upd).2.1 := by
  intro fuel
  induction fuel with
  | zero =>
    intro p upd hc
    by_cases hp : p = "" <;> simp [allowWalk, pureWalk, hp, hc]
  | succ fuel ih =>
    intro p upd hc
    by_cases hp : p = ""
    · simp [allowWalk, pureWalk, hp, hc]
    · have hfst := get_task_info_fst fetch cache p upd hc
      have hcons := get_task_info_consistent fetch cache p upd hc
      rcases hg : get_task_info fetch cache p upd with ⟨info?, upd2, n⟩
      rw [hg] at hfst hcons
      cases info? with
      | none =>
        simp only [allowWalk, pureWalk, hp, if_neg hp, hg]
        simp at hfst hcons
        simp [← hfst, hcons]
      | some info =>
        by_cases ha : p ∈ allowed
        · simp only [allowWalk, pureWalk, hp, if_neg hp, hg]
          simp at hfst hcons
          simp [← hfst, ha, hcons]
        · have hrec := ih (pyStrip info.parent_id) upd2 hcons
          simp only [allowWalk, pureWalk, hp, if_neg hp, hg]
          simp at hfst hcons
          simp [← hfst, ha, hrec.1, hrec.2]

theorem allowWalk_fst (fetch : String → Option RawItem)
    (cache : String → Option TaskInfo) (allowed : List String)
    (fuel : Nat) (p : String) (upd : Upd) (hc : UpdConsistent fetch cache upd) :
    (allowWalk fetch cache allowed fuel p upd).1 =
      pureWalk (effResolve fetch cache) allowed fuel p :=
  (allowWalk_spec fetch cache allowed fuel p upd hc).1

theorem is_task_allowed_fst (task_id parent_id : String) (allowed : List String)
    (fetch : String → Option RawItem) (cache : String → Option TaskInfo)
    (fuel : Nat) (upd : Upd) (hc : UpdConsistent fetch cache upd) :
    (is_task_allowed task_id parent_id allowed fetch cache fuel upd).1 =
      pureAllowed (effResolve fetch cache) allowed fuel task_id parent_id := by
  unfold is_task_allowed pureAllowed
  by_cases ht : task_id = "" <;> simp [ht]
  by_cases ha : task_id ∈ allowed <;> simp [ha]
  exact allowWalk_fst fetch cache allowed fuel (pyStrip parent_id) upd hc

theorem is_task_allowed_consistent (task_id parent_id : String) (allowed : List String)
    (fetch : String → Option RawItem) (cache : String → Option TaskInfo)
    (fuel : Nat) (upd : Upd) (hc : UpdConsistent fetch cache upd) :
    UpdConsistent fetch cache
      (is_task_allowed task_id parent_id allowed fetch cache fuel upd).2.1 := by
  unfold is_task_allowed
  by_cases ht : task_id = "" <;> simp [ht]
  · exact hc
  by_cases ha : task_id ∈ allowed <;> simp [ha]
  · exact hc
  · exact (allowWalk_spec fetch cache allowed fuel (pyStrip parent_id) upd hc).2

/-! ### Ancestor-chain lemmas -/

theorem ancChain_zero (R : String → Option TaskInfo) (p : String) :
    ancChain R p 0 = some p := rfl

theorem ancChain_none_succ (R : String → Option TaskInfo) (p : String) (k : Nat)
    (h : ancChain R p k = none) : ancChain R p (k + 1) = none := by
  simp [ancChain, h]

theorem ancChain_none_mono (R : String → Option TaskInfo) (p : String) {k m : Nat}
    (hkm : k ≤ m) (h : ancChain R p k = none) : ancChain R p m = none := by
  induction m with
  | zero =>
    have hk0 : k = 0 := Nat.le_zero.mp hkm
    exact hk0 ▸ h
  | succ m ih =>
    rcases Nat.lt_or_ge k (m + 1) with hlt | hge
    · exact ancChain_none_succ R p m (ih (Nat.lt_succ_iff.mp hlt))
    · have : k = m + 1 := Nat.le_antisymm hkm hge
      exact this ▸ h

theorem ancChain_empty (R : String → Option TaskInfo) (k : Nat) :
    ancChain R "" (k + 1) = none := by
  induction k with
  | zero => simp [ancChain]
  | succ k ih => exact ancChain_none_succ R "" (k + 1) ih

theorem ancChain_succ_of (R : String → Option TaskInfo) {p : String}
    {info : TaskInfo} (hp : ¬ p = "") (hi : R p = some info) :
    ∀ k, ancChain R p (k + 1) = ancChain R (pyStrip info.parent_id) k := by
  intro k
  induction k with
  | zero => simp [ancChain, hp, hi]
  | succ k ih =>
    show ancChain R p (k + 1 + 1) = _
    rw [ancChain, ih]
    rfl

theorem ancChain_succ_of_unres (R : String → Option TaskInfo) {p : String}
    (hp : ¬ p = "") (hi : R p = none) (k : Nat) :
    ancChain R p (k + 1) = none := by
  induction k with
  | zero => simp [ancChain, hp, hi]
  | succ k ih => exact ancChain_none_succ R p (k + 1) ih

/-! ### Characterisation of the stateless walk -/

/-- Soundness: a `True` decision exhibits a resolvable ancestor in the
allow-list somewhere along the chain. -/
theorem pureWalk_true_sound (R : String → Option TaskInfo) (allowed : List String) :
    ∀ (fuel : Nat) (p : String), pureWalk R allowed fuel p = some true →
      ∃ k q, ancChain R p k = some q ∧ ¬ q = "" ∧ (R q).isSome ∧ q ∈ allowed := by
  intro fuel
  induction fuel with
  | zero =>
    intro p h
    by_cases hp : p = "" <;> simp [pureWalk, hp] at h
  | succ fuel ih =>
    intro p h
    by_cases hp : p = ""
    · simp [pureWalk, hp] at h
    · cases hR : R p with
      | none =>
        simp only [pureWalk, if_neg hp, hR] at h
        simp at h
      | some info =>
        simp only [pureWalk, if_neg hp, hR] at h
        by_cases ha : p ∈ allowed
        · exact ⟨0, p, ancChain_zero R p, hp, by simp [hR], ha⟩
        · rw [if_neg ha] at h
          obtain ⟨k, q, hchain, hq, hres, hqa⟩ := ih (pyStrip info.parent_id) h
          exact ⟨k + 1, q, by rw [ancChain_succ_of R hp hR]; exact hchain, hq, hres, hqa⟩

/-- If some resolvable ancestor along the chain is in the allow-list, the walk
can never answer `False` (it answers `True` or runs out of fuel). -/
theorem pureWalk_ne_false (R : String → Option TaskInfo) (allowed : List String) :
    ∀ (fuel k : Nat) (p q : String), ancChain R p k = some q → ¬ q = "" →
      (R q).isSome → q ∈ allowed → ¬ pureWalk R allowed fuel p = some false := by
  intro fuel
  induction fuel with
  | zero =>
    intro k p q hchain hq _ _ h
    by_cases hp : p = ""
    · subst hp
      cases k with
      | zero =>
        rw [ancChain_zero] at hchain
        injection hchain with hpq
        exact hq hpq.symm
      | succ k => rw [ancChain_empty] at hchain; exact Option.noConfusion hchain
    · simp [pureWalk, hp] at h
  | succ fuel ih =>
    intro k p q hchain hq hres hqa h
    by_cases hp : p = ""
    · subst hp
      cases k with
      | zero =>
        rw [ancChain_zero] at hchain
        injection hchain with hpq
        exact hq hpq.symm
      | succ k => rw [ancChain_empty] at hchain; exact Option.noConfusion hchain
    · cases hR : R p with
      | none =>
        cases k with
        | zero =>
          rw [ancChain_zero] at hchain
          injection hchain with hpq
          rw [← hpq, hR] at hres
          simp at hres
        | succ k =>
          rw [ancChain_succ_of_unres R hp hR] at hchain
          exact Option.noConfusion hchain
      | some info =>
        simp only [pureWalk, if_neg hp, hR] at h
        by_cases ha : p ∈ allowed
        · rw [if_pos ha] at h; simp at h
        · rw [if_neg ha] at h
          cases k with
          | zero =>
            rw [ancChain_zero] at hchain
            injection hchain with hpq
            exact ha (hpq ▸ hqa)
          | succ k =>
            rw [ancChain_succ_of R hp hR] at hchain
            exact ih k (pyStrip info.parent_id) q hchain hq hres hqa h

/-- Determinism of the chain at a given index. -/
theorem ancChain_det (R : String → Option TaskInfo) (p : String) (k : Nat)
    {q r : String} (h1 : ancChain R p k = some q) (h2 : ancChain R p k = some r) :
    q = r := by
  rw [h1] at h2; injection h2

/-- If the chain reaches an unresolvable non-empty link before any allowed
ancestor, the walk can never answer `True` (fail-closed). -/
theorem pureWalk_ne_true_of_blocked (R : String → Option TaskInfo)
    (allowed : List String) (fuel k : Nat) (p q : String)
    (hchain : ancChain R p k = some q) (hq : ¬ q = "") (hres : R q = none)
    (hno : ∀ j r, j < k → ancChain R p j = some r → ¬ r ∈ allowed) :
    ¬ pureWalk R allowed fuel p = some true := by
  intro h
  obtain ⟨j, r, hc, hr, hrs, hra⟩ := pureWalk_true_sound R allowed fuel p h
  rcases Nat.lt_trichotomy j k with hjk | hjk | hjk
  · exact hno j r hjk hc hra
  · subst hjk
    have hqr := ancChain_det R p j hc hchain
    subst hqr
    rw [hres] at hrs
    simp at hrs
  · have hnone : ancChain R p (k + 1) = none := by
      simp [ancChain, hchain, hq, hres]
    have hlater := ancChain_none_mono R p (Nat.succ_le_of_lt hjk) hnone
    rw [hlater] at hc
    exact Option.noConfusion hc

/-- Fuel irrelevance / termination: once the chain dies within `d` steps, any
fuel at least `d` yields the same, definite decision. -/
theorem pureWalk_term (R : String → Option TaskInfo) (allowed : List String) :
    ∀ (d : Nat) (p : String), ancChain R p d = none →
      ∀ fuel, d ≤ fuel →
        pureWalk R allowed fuel p = pureWalk R allowed d p ∧
        (pureWalk R allowed d p).isSome := by
  intro d
  induction d with
  | zero =>
    intro p hchain
    rw [ancChain_zero] at hchain
    exact Option.noConfusion hchain
  | succ d ih =>
    intro p hchain fuel hfuel
    by_cases hp : p = ""
    · subst hp
      constructor
      · cases fuel <;> simp [pureWalk]
      · simp [pureWalk]
    · obtain ⟨fuel, rfl⟩ : ∃ f, fuel = f + 1 := by
        cases fuel with
        | zero => omega
        | succ f => exact ⟨f, rfl⟩
      cases hR : R p with
      | none => simp only [pureWalk, if_neg hp, hR]; simp
      | some info =>
        by_cases ha : p ∈ allowed
        · simp only [pureWalk, if_neg hp, hR, if_pos ha]; simp
        · simp only [pureWalk, if_neg hp, hR, if_neg ha]
          rw [ancChain_succ_of R hp hR] at hchain
          exact ih (pyStrip info.parent_id) hchain fuel (Nat.succ_le_succ_iff.mp hfuel)

/-- The live-fetch count of the stateful walk is bounded by the depth at
which the ancestor chain dies. -/
theorem allowWalk_count_le_depth (fetch : String → Option RawItem)
    (cache : String → Option TaskInfo) (allowed : List String) :
    ∀ (d : Nat) (p : String) (upd : Upd) (fuel : Nat),
      UpdConsistent fetch cache upd →
      ancChain (effResolve fetch cache) p d = none →
      (allowWalk fetch cache allowed fuel p upd).2.2 ≤ d := by
  intro d
  induction d with
  | zero =>
    intro p upd fuel _ hchain
    rw [ancChain_zero] at hchain
    exact Option.noConfusion hchain
  | succ d ih =>
    intro p upd fuel hc hchain
    by_cases hp : p = ""
    · subst hp
      cases fuel <;> simp [allowWalk]
    · cases fuel with
      | zero => simp [allowWalk, hp]
      | succ fuel =>
        have hfst := get_task_info_fst fetch cache p upd hc
        have hcons := get_task_info_consistent fetch cache p upd hc
        have hcount := get_task_info_count fetch cache p upd
        rcases hg : get_task_info fetch cache p upd with ⟨info?, upd2, n⟩
        rw [hg] at hfst hcons hcount
        simp at hcons hcount
        cases info? with
        | none =>
          simp only [allowWalk, if_neg hp, hg]
          omega
        | some info =>
          have hR : effResolve fetch cache p = some info := by rw [← hfst]
          by_cases ha : p ∈ allowed
          · simp only [allowWalk, if_neg hp, hg, if_pos ha]
            omega
          · rw [ancChain_succ_of (effResolve fetch cache) hp hR] at hchain
            have hrec := ih (pyStrip info.parent_id) upd2 fuel hcons hchain
            simp only [allowWalk, if_neg hp, hg, if_neg ha]
            show n + (allowWalk fetch cache allowed fuel (pyStrip info.parent_id) upd2).2.2 ≤ d + 1
            omega


/-! ### Pipeline lemmas -/

theorem UpdConsistent_nil (fetch : String → Option RawItem)
    (cache : String → Option TaskInfo) : UpdConsistent fetch cache [] := by
  intro x i h
  simp [lookupA] at h

theorem processItems_spec (fetch : String → Option RawItem)
    (cache : String → Option TaskInfo) (allowed : List String) (fuel : Nat) :
    ∀ (items : List RawItem) (existing : List String) (upd : Upd),
      UpdConsistent fetch cache upd →
      (processItems fetch cache allowed fuel items existing upd).1 =
        pureProcess (effResolve fetch cache) allowed fuel items existing ∧
      UpdConsistent fetch cache
        (processItems fetch cache allowed fuel items existing upd).2 := by
  intro items
  induction items with
  | nil => intro existing upd hc; exact ⟨rfl, hc⟩
  | cons item rest ih =>
    intro existing upd hc
    by_cases hskip : item.id = "" ∨ item.id ∈ existing
    · simp only [processItems, pureProcess, if_pos hskip]
      exact ih existing upd hc
    · have hfst := is_task_allowed_fst item.id (item.parent_id.getD "") allowed
        fetch cache fuel upd hc
      have hcons := is_task_allowed_consistent item.id (item.parent_id.getD "") allowed
        fetch cache fuel upd hc
      by_cases hdec :
          (is_task_allowed item.id (item.parent_id.getD "") allowed fetch cache fuel upd).1 =
            some true
      · have hpure : pureAllowed (effResolve fetch cache) allowed fuel item.id
            (item.parent_id.getD "") = some true := by rw [← hfst]; exact hdec
        have hrec := ih (item.id :: existing)
          (is_task_allowed item.id (item.parent_id.getD "") allowed fetch cache fuel upd).2.1
          hcons
        simp only [processItems, pureProcess, if_neg hskip, if_pos hdec, if_pos hpure]
        exact ⟨by rw [hrec.1], hrec.2⟩
      · have hpure : ¬ pureAllowed (effResolve fetch cache) allowed fuel item.id
            (item.parent_id.getD "") = some true := by rw [← hfst]; exact hdec
        have hrec := ih existing
          (is_task_allowed item.id (item.parent_id.getD "") allowed fetch cache fuel upd).2.1
          hcons
        simp only [processItems, pureProcess, if_neg hskip, if_neg hdec, if_neg hpure]
        exact hrec

theorem effResolve_mergeCache (fetch : String → Option RawItem)
    (cache : String → Option TaskInfo) (upd : Upd)
    (hc : UpdConsistent fetch cache upd) :
    effResolve fetch (mergeCache upd cache) = effResolve fetch cache := by
  funext x
  unfold effResolve mergeCache
  by_cases hx : x = "" <;> simp [hx]
  cases hupd : lookupA upd x with
  | some i =>
    obtain ⟨hcn, hf⟩ := hc x i hupd
    simp [hcn, hf]
  | none => rfl

theorem pureProcess_mem_id (R : String → Option TaskInfo) (allowed : List String)
    (fuel : Nat) :
    ∀ (items : List RawItem) (existing : List String) (e : CompletionEvent),
      e ∈ pureProcess R allowed fuel items existing →
      ¬ e.id = "" ∧ ¬ e.id ∈ existing := by
  intro items
  induction items with
  | nil => intro existing e h; simp [pureProcess] at h
  | cons item rest ih =>
    intro existing e h
    by_cases hskip : item.id = "" ∨ item.id ∈ existing
    · rw [pureProcess, if_pos hskip] at h
      exact ih existing e h
    · rw [pureProcess, if_neg hskip] at h
      by_cases hdec : pureAllowed R allowed fuel item.id (item.parent_id.getD "") = some true
      · rw [if_pos hdec] at h
        rcases List.mem_cons.mp h with he | he
        · subst he
          push_neg at hskip
          exact ⟨hskip.1, hskip.2⟩
        · obtain ⟨h1, h2⟩ := ih (item.id :: existing) e he
          exact ⟨h1, fun hmem => h2 (List.mem_cons_of_mem _ hmem)⟩
      · rw [if_neg hdec] at h
        exact ih existing e h

theorem pureProcess_ids_nodup (R : String → Option TaskInfo) (allowed : List String)
    (fuel : Nat) :
    ∀ (items : List RawItem) (existing : List String),
      ((pureProcess R allowed fuel items existing).map (fun e => e.id)).Nodup := by
  intro items
  induction items with
  | nil => intro existing; simp [pureProcess]
  | cons item rest ih =>
    intro existing
    by_cases hskip : item.id = "" ∨ item.id ∈ existing
    · rw [pureProcess, if_pos hskip]; exact ih existing
    · rw [pureProcess, if_neg hskip]
      by_cases hdec : pureAllowed R allowed fuel item.id (item.parent_id.getD "") = some true
      · rw [if_pos hdec]
        simp only [List.map_cons, List.nodup_cons]
        constructor
        · intro hmem
          obtain ⟨e, hmem2, heid⟩ := List.mem_map.mp hmem
          have := (pureProcess_mem_id R allowed fuel rest (item.id :: existing) e hmem2).2
          exact this (heid ▸ List.mem_cons_self item.id existing)
        · exact ih (item.id :: existing)
      · rw [if_neg hdec]; exact ih existing

theorem pureProcess_nil_of (R : String → Option TaskInfo) (allowed : List String)
    (fuel : Nat) :
    ∀ (items : List RawItem) (ex1 ex2 : List String),
      (∀ x, x ∈ ex1 → x ∈ ex2) →
      (∀ e, e ∈ pureProcess R allowed fuel items ex1 → e.id ∈ ex2) →
      pureProcess R allowed fuel items ex2 = [] := by
  intro items
  induction items with
  | nil => intro ex1 ex2 _ _; rfl
  | cons item rest ih =>
    intro ex1 ex2 hsub hids
    by_cases hid : item.id = ""
    · have hskip1 : item.id = "" ∨ item.id ∈ ex1 := Or.inl hid
      have hskip2 : item.id = "" ∨ item.id ∈ ex2 := Or.inl hid
      rw [pureProcess, if_pos hskip2]
      rw [pureProcess, if_pos hskip1] at hids
      exact ih ex1 ex2 hsub hids
    · by_cases hex1 : item.id ∈ ex1
      · have hskip1 : item.id = "" ∨ item.id ∈ ex1 := Or.inr hex1
        have hskip2 : item.id = "" ∨ item.id ∈ ex2 := Or.inr (hsub _ hex1)
        rw [pureProcess, if_pos hskip2]
        rw [pureProcess, if_pos hskip1] at hids
        exact ih ex1 ex2 hsub hids
      · have hskip1 : ¬ (item.id = "" ∨ item.id ∈ ex1) := by
          push_neg; exact ⟨hid, hex1⟩
        rw [pureProcess, if_neg hskip1] at hids
        by_cases hdec : pureAllowed R allowed fuel item.id (item.parent_id.getD "") = some true
        · rw [if_pos hdec] at hids
          have hin2 : item.id ∈ ex2 :=
            hids (event_from_item item) (List.mem_cons_self _ _)
          have hskip2 : item.id = "" ∨ item.id ∈ ex2 := Or.inr hin2
          rw [pureProcess, if_pos hskip2]
          refine ih (item.id :: ex1) ex2 ?_ ?_
          · intro x hx
            rcases List.mem_cons.mp hx with hx | hx
            · exact hx ▸ hin2
            · exact hsub x hx
          · intro e he
            exact hids e (List.mem_cons_of_mem _ he)
        · rw [if_neg hdec] at hids
          by_cases hex2 : item.id ∈ ex2
          · have hskip2 : item.id = "" ∨ item.id ∈ ex2 := Or.inr hex2
            rw [pureProcess, if_pos hskip2]
            exact ih ex1 ex2 hsub hids
          · have hskip2 : ¬ (item.id = "" ∨ item.id ∈ ex2) := by
              push_neg; exact ⟨hid, hex2⟩
            rw [pureProcess, if_neg hskip2, if_neg hdec]
            exact ih ex1 ex2 hsub hids

/-! ### Shared helper lemmas for the claims -/

theorem optionBool_eq_some_true (o : Option Bool) (h1 : ¬ o = none)
    (h2 : ¬ o = some false) : o = some true := by
  cases o with
  | none => exact absurd rfl h1
  | some b =>
    cases b with
    | false => exact absurd rfl h2
    | true => rfl

/-! ### C1 -/

/-- C1: for an item with non-empty id `t` and immediate parent id `p`, under
a consistent pending buffer and whenever the walk's answer is definite,
`is_task_allowed` answers `True` iff `t` itself is allow-listed or some
ancestor reached by transitively following (and resolving) `parent_id` links
is allow-listed; and if the walked chain reaches an unresolvable non-empty
link before any allow-listed ancestor, the answer is `False` (fail-closed).
Note the walk resolves each ancestor before testing membership, so an
ancestor only counts once it resolves. -/
theorem C1_admission_iff_and_fail_closed
    (fetch : String → Option RawItem) (cache : String → Option TaskInfo)
    (allowed : List String) (fuel : Nat) (upd : Upd) (task_id parent_id : String)
    (ht : ¬ task_id = "")
    (hc : UpdConsistent fetch cache upd)
    (hdef : ¬ (is_task_allowed task_id parent_id allowed fetch cache fuel upd).1 = none) :
    ((is_task_allowed task_id parent_id allowed fetch cache fuel upd).1 = some true ↔
      (task_id ∈ allowed ∨
        ∃ k q, ancChain (effResolve fetch cache) (pyStrip parent_id) k = some q ∧
          ¬ q = "" ∧ (effResolve fetch cache q).isSome ∧ q ∈ allowed)) ∧
    (∀ k q, ¬ task_id ∈ allowed →
      ancChain (effResolve fetch cache) (pyStrip parent_id) k = some q → ¬ q = "" →
      effResolve fetch cache q = none →
      (∀ j r, j < k → ancChain (effResolve fetch cache) (pyStrip parent_id) j = some r →
        ¬ r ∈ allowed) →
      (is_task_allowed task_id parent_id allowed fetch cache fuel upd).1 = some false) := by
  have hfst := is_task_allowed_fst task_id parent_id allowed fetch cache fuel upd hc
  rw [hfst] at hdef
  rw [hfst]
  by_cases ha : task_id ∈ allowed
  · constructor
    · exact ⟨fun _ => Or.inl ha, fun _ => by simp [pureAllowed, ht, ha]⟩
    · intro k q hna
      exact absurd ha hna
  · have hpa : pureAllowed (effResolve fetch cache) allowed fuel task_id parent_id =
        pureWalk (effResolve fetch cache) allowed fuel (pyStrip parent_id) := by
      simp [pureAllowed, ht, ha]
    rw [hpa] at hdef
    rw [hpa]
    constructor
    · constructor
      · intro htrue
        exact Or.inr (pureWalk_true_sound (effResolve fetch cache) allowed fuel
          (pyStrip parent_id) htrue)
      · rintro (hta | ⟨k, q, hch, hq, hres, hqa⟩)
        · exact absurd hta ha
        · exact optionBool_eq_some_true _ hdef
            (pureWalk_ne_false (effResolve fetch cache) allowed fuel k (pyStrip parent_id) q
              hch hq hres hqa)
    · intro k q _ hch hq hres hno
      have hnt := pureWalk_ne_true_of_blocked (effResolve fetch cache) allowed fuel k
        (pyStrip parent_id) q hch hq hres hno
      cases hw : pureWalk (effResolve fetch cache) allowed fuel (pyStrip parent_id) with
      | none => exact absurd hw hdef
      | some b =>
        cases b with
        | false => rfl
        | true => exact absurd hw hnt

/-- C1 witness: the theorem applied at id `"1"`, parent `"9"`, allow-list
`["5"]`, with tasks `"9"` and `"5"` cached; the decision is `True`. -/
theorem C1_admission_iff_and_fail_closed_witness :
    (¬ ("1" : String) = "") ∧
    UpdConsistent fetchOnly5 cache9and5 [] ∧
    (¬ (is_task_allowed "1" "9" ["5"] fetchOnly5 cache9and5 3 []).1 = none) ∧
    (((is_task_allowed "1" "9" ["5"] fetchOnly5 cache9and5 3 []).1 = some true ↔
      (("1" : String) ∈ ["5"] ∨
        ∃ k q, ancChain (effResolve fetchOnly5 cache9and5) (pyStrip "9") k = some q ∧
          ¬ q = "" ∧ (effResolve fetchOnly5 cache9and5 q).isSome ∧ q ∈ ["5"])) ∧
    (∀ k q, ¬ ("1" : String) ∈ ["5"] →
      ancChain (effResolve fetchOnly5 cache9and5) (pyStrip "9") k = some q → ¬ q = "" →
      effResolve fetchOnly5 cache9and5 q = none →
      (∀ j r, j < k → ancChain (effResolve fetchOnly5 cache9and5) (pyStrip "9") j = some r →
        ¬ r ∈ ["5"]) →
      (is_task_allowed "1" "9" ["5"] fetchOnly5 cache9and5 3 []).1 = some false)) :=
  ⟨by decide, UpdConsistent_nil _ _, by decide,
    C1_admission_iff_and_fail_closed fetchOnly5 cache9and5 ["5"] 3 [] "1" "9"
      (by decide) (UpdConsistent_nil _ _) (by decide)⟩

/-! ### C8 -/

/-- C8: when the parent chain induced by the effective resolver is acyclic —
it dies out within some depth `d` — the ancestor walk terminates with a
definite decision for any fuel at least `d`, the decision does not depend on
the extra fuel, and the walk performs at most one live resolution per
ancestor (at most `d` live fetches). -/
theorem C8_walk_terminates_on_acyclic_chain
    (fetch : String → Option RawItem) (cache : String → Option TaskInfo)
    (allowed : List String) (fuel : Nat) (upd : Upd) (task_id parent_id : String)
    (d : Nat)
    (hc : UpdConsistent fetch cache upd)
    (hd : ancChain (effResolve fetch cache) (pyStrip parent_id) d = none)
    (hfuel : d ≤ fuel) :
    ((is_task_allowed task_id parent_id allowed fetch cache fuel upd).1).isSome ∧
    (is_task_allowed task_id parent_id allowed fetch cache fuel upd).1 =
      (is_task_allowed task_id parent_id allowed fetch cache d upd).1 ∧
    (is_task_allowed task_id parent_id allowed fetch cache fuel upd).2.2 ≤ d := by
  unfold is_task_allowed
  by_cases ht : task_id = ""
  · simp [ht]
  · by_cases ha : task_id ∈ allowed
    · simp [ht, ha]
    · simp only [if_neg ht, if_neg ha]
      have hterm := pureWalk_term (effResolve fetch cache) allowed d (pyStrip parent_id) hd
      have h1 := allowWalk_fst fetch cache allowed fuel (pyStrip parent_id) upd hc
      have h2 := allowWalk_fst fetch cache allowed d (pyStrip parent_id) upd hc
      refine ⟨?_, ?_, ?_⟩
      · rw [h1, (hterm fuel hfuel).1]
        exact (hterm fuel hfuel).2
      · rw [h1, h2]
        exact (hterm fuel hfuel).1
      · exact allowWalk_count_le_depth fetch cache allowed d (pyStrip parent_id) upd fuel hc hd

/-- C8 witness: depth 1 (empty parent), fuel 1. -/
theorem C8_walk_terminates_on_acyclic_chain_witness :
    UpdConsistent (fun _ => none) (fun _ => none) [] ∧
    ancChain (effResolve (fun _ => none) (fun _ => none)) (pyStrip "") 1 = none ∧
    1 ≤ 1 ∧
    (((is_task_allowed "1" "" [] (fun _ => none) (fun _ => none) 1 []).1).isSome ∧
    (is_task_allowed "1" "" [] (fun _ => none) (fun _ => none) 1 []).1 =
      (is_task_allowed "1" "" [] (fun _ => none) (fun _ => none) 1 []).1 ∧
    (is_task_allowed "1" "" [] (fun _ => none) (fun _ => none) 1 []).2.2 ≤ 1) :=
  ⟨UpdConsistent_nil _ _, by decide, by decide,
    C8_walk_terminates_on_acyclic_chain (fun _ => none) (fun _ => none) [] 1 [] "1" ""
      1 (UpdConsistent_nil _ _) (by decide) (by decide)⟩

/-! ### Store-id helper lemmas -/

theorem storeIds_append (a b : List CompletionEvent) :
    storeIds (a ++ b) = storeIds a ++ storeIds b := by
  simp [storeIds]

theorem mem_storeIds_of (events : List CompletionEvent) (e : CompletionEvent)
    (he : e ∈ events) (hid : ¬ e.id = "") : e.id ∈ storeIds events := by
  simp only [storeIds, List.mem_filter, List.mem_map, decide_eq_true_eq]
  exact ⟨⟨e, he, rfl⟩, hid⟩

theorem of_mem_storeIds (events : List CompletionEvent) (x : String)
    (hx : x ∈ storeIds events) : ∃ e ∈ events, e.id = x := by
  simp only [storeIds, List.mem_filter, List.mem_map] at hx
  obtain ⟨⟨e, he, hid⟩, -⟩ := hx
  exact ⟨e, he, hid⟩

theorem mergeCache_preserves (fetch : String → Option RawItem)
    (cache : String → Option TaskInfo) (upd : Upd)
    (hc : UpdConsistent fetch cache upd) (x : String) (i : TaskInfo)
    (hx : cache x = some i) : mergeCache upd cache x = some i := by
  unfold mergeCache
  cases hupd : lookupA upd x with
  | none => exact hx
  | some j =>
    obtain ⟨hnone, -⟩ := hc x j hupd
    rw [hnone] at hx
    exact Option.noConfusion hx

/-! ### C3 -/

/-- C3: running the admission-and-append pipeline twice over the same fetched
items, the same resolver, and the resulting store/cache of the first run
appends nothing the second time: the store after two runs equals the store
after one.  Moreover, if the starting store has no duplicate ids, neither
does the store after a run. -/
theorem C3_ingestion_idempotent
    (fetch : String → Option RawItem) (allowed : List String) (fuel : Nat)
    (items : List RawItem) (cache : String → Option TaskInfo)
    (store : List CompletionEvent)
    (hnd : (storeIds store).Nodup) :
    (ingestRun fetch allowed fuel items
        (ingestRun fetch allowed fuel items cache store).2
        (ingestRun fetch allowed fuel items cache store).1).1 =
      (ingestRun fetch allowed fuel items cache store).1 ∧
    (storeIds (ingestRun fetch allowed fuel items cache store).1).Nodup := by
  have hs1 := processItems_spec fetch cache allowed fuel items (storeIds store) []
    (UpdConsistent_nil fetch cache)
  set R := effResolve fetch cache with hR
  set ne1 := pureProcess R allowed fuel items (storeIds store) with hne1
  have hrun1 : (ingestRun fetch allowed fuel items cache store).1 = store ++ ne1 := by
    show store ++ (processItems fetch cache allowed fuel items (storeIds store) []).1 = _
    rw [hs1.1]
  have hcache2 : effResolve fetch (ingestRun fetch allowed fuel items cache store).2 = R := by
    show effResolve fetch
      (mergeCache (processItems fetch cache allowed fuel items (storeIds store) []).2 cache) = R
    exact effResolve_mergeCache fetch cache _ hs1.2
  have hs2 := processItems_spec fetch (ingestRun fetch allowed fuel items cache store).2
    allowed fuel items (storeIds (store ++ ne1)) []
    (UpdConsistent_nil fetch _)
  have hne2nil : pureProcess (effResolve fetch (ingestRun fetch allowed fuel items cache store).2)
      allowed fuel items (storeIds (store ++ ne1)) = [] := by
    rw [hcache2]
    refine pureProcess_nil_of R allowed fuel items (storeIds store) (storeIds (store ++ ne1))
      ?_ ?_
    · intro x hx
      rw [storeIds_append]
      exact List.mem_append_left _ hx
    · intro e he
      rw [storeIds_append]
      refine List.mem_append_right _ ?_
      exact mem_storeIds_of ne1 e he (pureProcess_mem_id R allowed fuel items (storeIds store) e he).1
  constructor
  · show (ingestRun fetch allowed fuel items cache store).1 ++
        (processItems fetch (ingestRun fetch allowed fuel items cache store).2 allowed fuel
          items (storeIds (ingestRun fetch allowed fuel items cache store).1) []).1 = _
    rw [hrun1, hs2.1, hne2nil, List.append_nil]
  · rw [hrun1, storeIds_append]
    refine List.Nodup.append hnd ?_ ?_
    · have hmapnd := pureProcess_ids_nodup R allowed fuel items (storeIds store)
      exact hmapnd.filter _
    · intro x hx1 hx2
      obtain ⟨e, he, heid⟩ := of_mem_storeIds ne1 x hx2
      exact (pureProcess_mem_id R allowed fuel items (storeIds store) e he).2 (heid ▸ hx1)

/-- C3 witness: a store holding one event, one matching fetched item already
present by id; the second run is a no-op and ids stay unique. -/
theorem C3_ingestion_idempotent_witness :
    ((storeIds [(⟨"7", "c", "", "p", "", "x"⟩ : CompletionEvent)]).Nodup) ∧
    ((ingestRun (fun _ => none) ["7"] 1 [⟨"7", none, none, "p", none, none⟩]
        (ingestRun (fun _ => none) ["7"] 1 [⟨"7", none, none, "p", none, none⟩]
          (fun _ => none)
          [(⟨"7", "c", "", "p", "", "x"⟩ : CompletionEvent)]).2
        (ingestRun (fun _ => none) ["7"] 1 [⟨"7", none, none, "p", none, none⟩]
          (fun _ => none)
          [(⟨"7", "c", "", "p", "", "x"⟩ : CompletionEvent)]).1).1 =
      (ingestRun (fun _ => none) ["7"] 1 [⟨"7", none, none, "p", none, none⟩]
        (fun _ => none)
        [(⟨"7", "c", "", "p", "", "x"⟩ : CompletionEvent)]).1 ∧
    (storeIds (ingestRun (fun _ => none) ["7"] 1 [⟨"7", none, none, "p", none, none⟩]
        (fun _ => none)
        [(⟨"7", "c", "", "p", "", "x"⟩ : CompletionEvent)]).1).Nodup) :=
  ⟨by decide,
    C3_ingestion_idempotent (fun _ => none) ["7"] 1 [⟨"7", none, none, "p", none, none⟩]
      (fun _ => none)
      [(⟨"7", "c", "", "p", "", "x"⟩ : CompletionEvent)] (by decide)⟩

/-! ### C9 -/

/-- C9: every task id present in the persistent cache at run start maps to
the same entry in the cache persisted at run end — a run only adds entries
(resolution short-circuits on cache hits, so the pending buffer never holds
a key the cache already has, and the end-of-run merge cannot overwrite). -/
theorem C9_cache_entries_preserved
    (token_env env_allowed : Option String) (config : Option (List String))
    (fetch : String → Option RawItem) (fetchItems : String → String → List RawItem)
    (project_map : String → Option String) (localize : String → LocalDT)
    (now_iso default_start_iso heading_date : String) (fuel : Nat) (fs : FS)
    (x : String) (i : TaskInfo) (hx : fs.task_cache x = some i) :
    (mainRun token_env env_allowed config fetch fetchItems project_map localize
        now_iso default_start_iso heading_date fuel fs).1.task_cache x = some i := by
  unfold mainRun
  by_cases htok : pyStrip (token_env.getD "") = ""
  · simp only [if_pos htok]
    exact hx
  · simp only [if_neg htok]
    by_cases hallow : get_allowed_root_ids_from_env_or_config env_allowed config = []
    · simp only [if_pos hallow]
      exact hx
    · simp only [if_neg hallow]
      have hcons := (processItems_spec fetch fs.task_cache
        (get_allowed_root_ids_from_env_or_config env_allowed config) fuel
        (fetchItems
          (match fs.last_run_iso with
            | some l => if l = "" then default_start_iso else l
            | none => default_start_iso) now_iso)
        (storeIds fs.events) [] (UpdConsistent_nil fetch fs.task_cache)).2
      exact mergeCache_preserves fetch fs.task_cache _ hcons x i hx

/-- C9 witness: a one-entry cache survives a run untouched. -/
theorem C9_cache_entries_preserved_witness :
    ((fun y => if y = "a" then some (⟨"t", "", "p"⟩ : TaskInfo) else none) "a" =
      some (⟨"t", "", "p"⟩ : TaskInfo)) ∧
    (mainRun (some "tok") (some "5") none (fun _ => none) (fun _ _ => [])
        (fun _ => none) (fun _ => default) "2024-06-01T00:00:00Z" "2024-05-31T00:00:00Z"
        "2024-05-27" 1
        ⟨none, [], (fun y => if y = "a" then some (⟨"t", "", "p"⟩ : TaskInfo) else none),
          none⟩).1.task_cache "a" = some (⟨"t", "", "p"⟩ : TaskInfo) :=
  ⟨by decide,
    C9_cache_entries_preserved (some "tok") (some "5") none (fun _ => none) (fun _ _ => [])
      (fun _ => none) (fun _ => default) "2024-06-01T00:00:00Z" "2024-05-31T00:00:00Z"
      "2024-05-27" 1
      ⟨none, [], (fun y => if y = "a" then some (⟨"t", "", "p"⟩ : TaskInfo) else none), none⟩
      "a" ⟨"t", "", "p"⟩ (by decide)⟩

/-! ### C2 -/

/-- C2 counterexample: a window of 90 days plus one hour (since 0, until
7 779 600 s) is NOT clamped — `timedelta.days` floors to 90, which is not
`> 90` — so the effective window keeps the original start and its span
exceeds the 90-day service maximum, contradicting both halves of the claim
(the claimed window would start at 3600). -/
theorem C2_counterexample :
    fetch_completed_window 0 7779600 = (0, 7779600) ∧
    (7779600 : Int) - 0 > 90 * 86400 ∧
    ¬ fetch_completed_window 0 7779600 = (7779600 - 90 * 86400, 7779600) := by
  refine ⟨?_, by norm_num, ?_⟩ <;> decide

/-- C2 amended: the effective window always keeps `until`; its span is less
than 91 days (not at most 90: a fractional day above 90 survives); and the
start is advanced to exactly `until - 90 days` whenever `until - since` is
at least 91 whole days (the clamp tests `timedelta.days > 90`, i.e. the
floor of the day count). -/
theorem C2_amended (since_s until_s : Int) (h : since_s ≤ until_s) :
    (fetch_completed_window since_s until_s).2 = until_s ∧
    (fetch_completed_window since_s until_s).2 - (fetch_completed_window since_s until_s).1 <
      91 * 86400 ∧
    (91 * 86400 ≤ until_s - since_s →
      fetch_completed_window since_s until_s = (until_s - 90 * 86400, until_s)) := by
  have hfd : Int.fdiv (until_s - since_s) 86400 = (until_s - since_s) / 86400 :=
    Int.fdiv_eq_ediv _ (by norm_num)
  unfold fetch_completed_window THREE_MONTHS_DAYS
  rw [hfd]
  by_cases hc : (90 : Int) < (until_s - since_s) / 86400
  · rw [if_pos hc]
    refine ⟨rfl, ?_, fun _ => rfl⟩
    show until_s - (until_s - 90 * 86400) < 91 * 86400
    omega
  · rw [if_neg hc]
    refine ⟨rfl, ?_, ?_⟩
    · show until_s - since_s < 91 * 86400
      omega
    · intro hge
      exfalso
      omega

/-- C2 amended witness: a 100-second window. -/
theorem C2_amended_witness :
    (0 : Int) ≤ 100 ∧
    ((fetch_completed_window 0 100).2 = 100 ∧
    (fetch_completed_window 0 100).2 - (fetch_completed_window 0 100).1 < 91 * 86400 ∧
    (91 * 86400 ≤ (100 : Int) - 0 →
      fetch_completed_window 0 100 = (100 - 90 * 86400, 100))) :=
  ⟨by norm_num, C2_amended 0 100 (by norm_num)⟩

/-! ### C4 -/

/-- C4 counterexample: with the cache holding only `task "9" -> parent "5"`
and `"5"` allow-listed (and resolvable over the network), the event with
parent `"9"` is admitted, but the walk resolves `"5"` before testing
membership: the live single-task fetch IS invoked (once), and the pending
buffer gains the entry for `"5"` — contradicting "no new network fetch" and
"pending buffer left unchanged". -/
theorem C4_counterexample :
    (is_task_allowed "100" "9" ["5"] fetchOnly5 cacheOnly9 5 []).1 = some true ∧
    (is_task_allowed "100" "9" ["5"] fetchOnly5 cacheOnly9 5 []).2.2 = 1 ∧
    ¬ (is_task_allowed "100" "9" ["5"] fetchOnly5 cacheOnly9 5 []).2.1 = ([] : Upd) := by
  refine ⟨?_, ?_, ?_⟩ <;> decide

/-- C4 amended: the scenario admits the event, and it is fetch-free exactly
when the allow-listed ancestor `"5"` is itself cached: with both `"9"` and
`"5"` in the cache the decision is `True`, the pending buffer is unchanged
and no live fetch happens. -/
theorem C4_amended
    (fetch : String → Option RawItem) (cache : String → Option TaskInfo)
    (allowed : List String) (upd : Upd) (fuel : Nat) (t : String)
    (i9 i5 : TaskInfo)
    (h9 : cache "9" = some i9) (hp9 : i9.parent_id = "5") (h5 : cache "5" = some i5)
    (ha5 : "5" ∈ allowed) (ht : ¬ t = "") (hta : ¬ t ∈ allowed)
    (hfuel : 2 ≤ fuel) :
    is_task_allowed t "9" allowed fetch cache fuel upd = (some true, upd, 0) := by
  obtain ⟨f, rfl⟩ : ∃ f, fuel = f + 2 := ⟨fuel - 2, by omega⟩
  have h9s : pyStrip "9" = "9" := by decide
  have h5s : pyStrip "5" = "5" := by decide
  have hg9 : get_task_info fetch cache "9" upd = (some i9, upd, 0) := by
    simp [get_task_info, h9]
  have hg5 : get_task_info fetch cache "5" upd = (some i5, upd, 0) := by
    simp [get_task_info, h5]
  by_cases h9a : "9" ∈ allowed
  · simp [is_task_allowed, ht, hta, h9s, allowWalk, hg9, h9a]
  · simp [is_task_allowed, ht, hta, h9s, allowWalk, hg9, h9a, hp9, h5s, hg5, ha5]

/-- C4 amended witness: both `"9"` and `"5"` cached, event id `"100"`. -/
theorem C4_amended_witness :
    (cache9and5 "9" = some ⟨"c9", "5", "p1"⟩ ∧ cache9and5 "5" = some ⟨"g5", "", "p1"⟩ ∧
      ("5" : String) ∈ ["5"] ∧ ¬ ("100" : String) = "" ∧ ¬ ("100" : String) ∈ ["5"] ∧
      2 ≤ 5) ∧
    is_task_allowed "100" "9" ["5"] fetchOnly5 cache9and5 5 [] = (some true, [], 0) :=
  ⟨⟨by decide, by decide, by decide, by decide, by decide, by decide⟩,
    C4_amended fetchOnly5 cache9and5 ["5"] [] 5 "100" ⟨"c9", "5", "p1"⟩ ⟨"g5", "", "p1"⟩
      (by decide) rfl (by decide) (by decide) (by decide) (by decide) (by decide)⟩

/-! ### C5 -/

/-- C5 counterexample: an empty allow-list run exits before touching any
state: with a stored watermark of 2024-01-01 and a run upper bound of
2024-06-01, the watermark is left at 2024-01-01 and is NOT updated to the
run's upper bound, contradicting the claim's "except that `last_run_iso` is
updated". -/
theorem C5_counterexample :
    (mainRun (some "tok") none (some []) (fun _ => none) (fun _ _ => [])
        (fun _ => none) (fun _ => default) "2024-06-01T00:00:00Z" "2024-05-31T00:00:00Z"
        "2024-05-27" 0
        ⟨some "2024-01-01T00:00:00Z", [], fun _ => none, none⟩).1.last_run_iso =
      some "2024-01-01T00:00:00Z" ∧
    ¬ (some "2024-01-01T00:00:00Z" = some ("2024-06-01T00:00:00Z" : String)) := by
  refine ⟨?_, by decide⟩
  rfl

/-- C5 amended: an empty allow-list run admits zero events and leaves the
watermark record and the task cache (and the rendered document) entirely
untouched — including `last_run_iso`, which is NOT updated. -/
theorem C5_amended_empty_allowlist_frame
    (token_env env_allowed : Option String) (config : Option (List String))
    (fetch : String → Option RawItem) (fetchItems : String → String → List RawItem)
    (project_map : String → Option String) (localize : String → LocalDT)
    (now_iso default_start_iso heading_date : String) (fuel : Nat) (fs : FS)
    (htok : ¬ pyStrip (token_env.getD "") = "")
    (hempty : get_allowed_root_ids_from_env_or_config env_allowed config = []) :
    (mainRun token_env env_allowed config fetch fetchItems project_map localize
        now_iso default_start_iso heading_date fuel fs).1.events = fs.events ∧
    (mainRun token_env env_allowed config fetch fetchItems project_map localize
        now_iso default_start_iso heading_date fuel fs).1.task_cache = fs.task_cache ∧
    (mainRun token_env env_allowed config fetch fetchItems project_map localize
        now_iso default_start_iso heading_date fuel fs).1.last_run_iso = fs.last_run_iso ∧
    (mainRun token_env env_allowed config fetch fetchItems project_map localize
        now_iso default_start_iso heading_date fuel fs).1.completed_md = fs.completed_md := by
  unfold mainRun
  rw [if_neg htok, hempty]
  simp

/-- C5 amended witness. -/
theorem C5_amended_empty_allowlist_frame_witness :
    (¬ pyStrip ((some "tok").getD "") = "" ∧
      get_allowed_root_ids_from_env_or_config none (some []) = []) ∧
    ((mainRun (some "tok") none (some []) (fun _ => none) (fun _ _ => [])
        (fun _ => none) (fun _ => default) "n" "d" "h" 0
        ⟨some "w", [], fun _ => none, none⟩).1.events = [] ∧
    (mainRun (some "tok") none (some []) (fun _ => none) (fun _ _ => [])
        (fun _ => none) (fun _ => default) "n" "d" "h" 0
        ⟨some "w", [], fun _ => none, none⟩).1.task_cache = (fun _ => none) ∧
    (mainRun (some "tok") none (some []) (fun _ => none) (fun _ _ => [])
        (fun _ => none) (fun _ => default) "n" "d" "h" 0
        ⟨some "w", [], fun _ => none, none⟩).1.last_run_iso = some "w" ∧
    (mainRun (some "tok") none (some []) (fun _ => none) (fun _ _ => [])
        (fun _ => none) (fun _ => default) "n" "d" "h" 0
        ⟨some "w", [], fun _ => none, none⟩).1.completed_md = none) :=
  ⟨⟨by decide, by decide⟩,
    C5_amended_empty_allowlist_frame (some "tok") none (some []) (fun _ => none)
      (fun _ _ => []) (fun _ => none) (fun _ => default) "n" "d" "h" 0
      ⟨some "w", [], fun _ => none, none⟩ (by decide) (by decide)⟩

/-! ### C6 -/

/-- C6: with a non-empty token and an empty configured allow-list, the run
performs no admission and writes nothing — the whole file state is returned
unchanged — and the process exits with status 0. -/
theorem C6_empty_allowlist_noop_success
    (token_env env_allowed : Option String) (config : Option (List String))
    (fetch : String → Option RawItem) (fetchItems : String → String → List RawItem)
    (project_map : String → Option String) (localize : String → LocalDT)
    (now_iso default_start_iso heading_date : String) (fuel : Nat) (fs : FS)
    (htok : ¬ pyStrip (token_env.getD "") = "")
    (hempty : get_allowed_root_ids_from_env_or_config env_allowed config = []) :
    mainRun token_env env_allowed config fetch fetchItems project_map localize
      now_iso default_start_iso heading_date fuel fs = (fs, 0) := by
  unfold mainRun
  rw [if_neg htok, hempty]
  simp

/-- C6 witness. -/
theorem C6_empty_allowlist_noop_success_witness :
    (¬ pyStrip ((some "tok").getD "") = "" ∧
      get_allowed_root_ids_from_env_or_config none none = []) ∧
    mainRun (some "tok") none none (fun _ => none) (fun _ _ => [])
        (fun _ => none) (fun _ => default) "n" "d" "h" 0
        ⟨none, [], fun _ => none, none⟩ =
      (⟨none, [], fun _ => none, none⟩, 0) :=
  ⟨⟨by decide, by decide⟩,
    C6_empty_allowlist_noop_success (some "tok") none none (fun _ => none) (fun _ _ => [])
      (fun _ => none) (fun _ => default) "n" "d" "h" 0
      ⟨none, [], fun _ => none, none⟩ (by decide) (by decide)⟩

/-! ### C10 -/

/-- C10: an override `TODOIST_ALLOWED_ROOT_TASK_IDS = " , "` is non-empty
after stripping, so the environment branch is taken: the allow-list is the
empty set regardless of the configuration value — `config.json` is never
consulted — and the run (with a valid token) is a successful no-op even if
the configuration holds a valid allow-list. -/
theorem C10_blank_env_override_noop
    (token_env : Option String) (config : Option (List String))
    (fetch : String → Option RawItem) (fetchItems : String → String → List RawItem)
    (project_map : String → Option String) (localize : String → LocalDT)
    (now_iso default_start_iso heading_date : String) (fuel : Nat) (fs : FS)
    (htok : ¬ pyStrip (token_env.getD "") = "") :
    get_allowed_root_ids_from_env_or_config (some " , ") config = [] ∧
    mainRun token_env (some " , ") config fetch fetchItems project_map localize
      now_iso default_start_iso heading_date fuel fs = (fs, 0) := by
  have hparse : get_allowed_root_ids_from_env_or_config (some " , ") config = [] := rfl
  refine ⟨hparse, ?_⟩
  unfold mainRun
  rw [if_neg htok, hparse]
  simp

/-- C10 witness: the configuration holds the valid allow-list `["5"]`, yet
the blank override empties the allow-list and the run is a no-op. -/
theorem C10_blank_env_override_noop_witness :
    (¬ pyStrip ((some "tok").getD "") = "") ∧
    (get_allowed_root_ids_from_env_or_config (some " , ") (some ["5"]) = [] ∧
    mainRun (some "tok") (some " , ") (some ["5"]) (fun _ => none) (fun _ _ => [])
        (fun _ => none) (fun _ => default) "n" "d" "h" 0
        ⟨none, [], fun _ => none, none⟩ =
      (⟨none, [], fun _ => none, none⟩, 0)) :=
  ⟨by decide,
    C10_blank_env_override_noop (some "tok") (some ["5"]) (fun _ => none) (fun _ _ => [])
      (fun _ => none) (fun _ => default) "n" "d" "h" 0
      ⟨none, [], fun _ => none, none⟩ (by decide)⟩

/-! ### Grouping lemmas for the renderer -/

theorem goalTasks_addTask (grp : List (String × String × List (String × String)))
    (pd' pj' pri c pd pj : String) :
    goalTasks (addTask grp pd' pj' pri c) pd pj =
      goalTasks grp pd pj ++ (if pd' = pd ∧ pj' = pj then [(pri, c)] else []) := by
  induction grp with
  | nil =>
    by_cases hm : pd' = pd ∧ pj' = pj
    · simp [addTask, goalTasks, List.find?, hm]
    · simp [addTask, goalTasks, List.find?, hm]
  | cons hd rest ih =>
    obtain ⟨p, proj, tasks⟩ := hd
    by_cases hins : p = pd' ∧ proj = pj'
    · by_cases hq : p = pd ∧ proj = pj
      · have hcond : pd' = pd ∧ pj' = pj :=
          ⟨hins.1 ▸ hq.1, hins.2 ▸ hq.2⟩
        simp [addTask, goalTasks, List.find?, hins, hq, hcond]
      · have hcond : ¬ (pd' = pd ∧ pj' = pj) := by
          intro hc
          exact hq ⟨hins.1.symm ▸ hc.1, hins.2.symm ▸ hc.2⟩
        simp [addTask, goalTasks, List.find?, hins, hq, hcond]
    · by_cases hq : p = pd ∧ proj = pj
      · have hcond : ¬ (pd' = pd ∧ pj' = pj) := by
          intro hc
          exact hins ⟨hq.1.trans hc.1.symm, hq.2.trans hc.2.symm⟩
        have hins2 : ¬ (pd = pd' ∧ pj = pj') := by
          intro hc
          exact hins ⟨hq.1.trans hc.1, hq.2.trans hc.2⟩
        simp [addTask, goalTasks, List.find?, hins, hq, hcond, hins2]
      · have hlhs := ih
        simp only [addTask, if_neg hins]
        simp only [goalTasks, List.find?] at hlhs ⊢
        simp [hq] at hlhs ⊢
        exact hlhs

theorem tasksOf_insertRow
    (gs : List (String × List (String × String × List (String × String))))
    (dk pd' pj' pri c d pd pj : String) :
    tasksOf (insertRow gs dk pd' pj' pri c) d pd pj =
      tasksOf gs d pd pj ++
        (if dk = d ∧ pd' = pd ∧ pj' = pj then [(pri, c)] else []) := by
  induction gs with
  | nil =>
    by_cases hd : dk = d
    · subst hd
      by_cases hm : pd' = pd ∧ pj' = pj
      · simp [insertRow, tasksOf, List.find?, hm, goalTasks_addTask, goalTasks]
      · simp [insertRow, tasksOf, List.find?, hm, goalTasks_addTask, goalTasks]
    · simp [insertRow, tasksOf, List.find?, hd]
  | cons hd0 rest ih =>
    obtain ⟨d0, grp⟩ := hd0
    by_cases hins : d0 = dk
    · subst hins
      by_cases hq : d0 = d
      · subst hq
        simp [insertRow, tasksOf, List.find?, goalTasks_addTask]
      · have hcond : ¬ (d0 = d ∧ pd' = pd ∧ pj' = pj) := fun hc => hq hc.1
        simp [insertRow, tasksOf, List.find?, hq, hcond]
    · by_cases hq : d0 = d
      · subst hq
        have hcond : ¬ (dk = d0 ∧ pd' = pd ∧ pj' = pj) := fun hc => hins hc.1.symm
        simp [insertRow, tasksOf, List.find?, hins, hcond]
      · simp only [insertRow, if_neg (fun hc => hins hc : ¬ d0 = dk)]
        simp only [tasksOf, List.find?]
        simp [hq]
        exact ih

theorem tasksOf_groupRows_aux (d pd pj : String) :
    ∀ (rows : List EnrichedRow)
      (gs : List (String × List (String × String × List (String × String)))),
      tasksOf (rows.foldl (fun gs row =>
          insertRow gs (normDate row.date_line) row.parent_display row.project_name
            row.priority_display row.content_safe) gs) d pd pj =
        tasksOf gs d pd pj ++
          (rows.filter (fun r => decide (normDate r.date_line = d ∧
            r.parent_display = pd ∧ r.project_name = pj))).map
            (fun r => (r.priority_display, r.content_safe)) := by
  intro rows
  induction rows with
  | nil => intro gs; simp
  | cons r rows ih =>
    intro gs
    rw [List.foldl_cons, ih, tasksOf_insertRow]
    by_cases hm : normDate r.date_line = d ∧ r.parent_display = pd ∧ r.project_name = pj
    · simp [hm, List.filter_cons]
    · simp [hm, List.filter_cons]

/-! ### C7 -/

unseal List.merge List.mergeSort in
/-- C7 counterexample: three entries on the same local date with completion
instants 1 (goal A), 2 (goal B), 3 (goal A).  Grouping by `(Goal, Project)`
within the date puts the instant-3 entry (goal A) textually BEFORE the
instant-2 entry (goal B): the line `"    - * gamma"` precedes
`"    - * beta"` in the emitted text although `beta` completed earlier —
contradicting "for any two entries in the same week, the one with the
earlier completion instant appears first". -/
theorem C7_counterexample :
    rowBeta.local_dt < rowGamma.local_dt ∧
    ((build_grouped_blocks [rowAlpha, rowBeta, rowGamma]).data.count '\n' = 5) ∧
    ((pySplit (build_grouped_blocks [rowAlpha, rowBeta, rowGamma]) '\n').indexOf
        "    - * gamma" <
      (pySplit (build_grouped_blocks [rowAlpha, rowBeta, rowGamma]) '\n').indexOf
        "    - * beta") := by
  refine ⟨by decide, ?_, ?_⟩ <;> decide

/-- C7 amended: within one date block, entries are grouped by
`(Goal, Project)` in order of first appearance; each such group's task list
is exactly the instant-ascending subsequence of entries with that
`(date, Goal, Project)` key, so ascending completion order holds within each
group (and date blocks follow the sorted order), but two entries of the same
week under different goal groups need not appear in global ascending order. -/
theorem C7_amended_group_order (enriched : List EnrichedRow) (d pd pj : String) :
    tasksOf (groupRows (enriched.mergeSort (fun a b => decide (a.local_dt ≤ b.local_dt))))
        d pd pj =
      ((enriched.mergeSort (fun a b => decide (a.local_dt ≤ b.local_dt))).filter
        (fun r => decide (normDate r.date_line = d ∧ r.parent_display = pd ∧
          r.project_name = pj))).map (fun r => (r.priority_display, r.content_safe)) ∧
    ((enriched.mergeSort (fun a b => decide (a.local_dt ≤ b.local_dt))).filter
        (fun r => decide (normDate r.date_line = d ∧ r.parent_display = pd ∧
          r.project_name = pj))).Pairwise (fun a b => a.local_dt ≤ b.local_dt) := by
  constructor
  · unfold groupRows
    rw [tasksOf_groupRows_aux]
    simp [tasksOf]
  · have hs := @List.sorted_mergeSort EnrichedRow (fun a b => decide (a.local_dt ≤ b.local_dt))
      (fun a b c h1 h2 => by
        simp only [decide_eq_true_eq] at h1 h2 ⊢
        omega)
      (fun a b => by
        simp only [Bool.or_eq_true, decide_eq_true_eq]
        omega) enriched
    have hp : (enriched.mergeSort (fun a b => decide (a.local_dt ≤ b.local_dt))).Pairwise
        (fun a b => a.local_dt ≤ b.local_dt) := by
      refine hs.imp ?_
      intro a b hab
      simpa using hab
    exact List.Pairwise.sublist (List.filter_sublist _) hp
